import Mathlib

/-!
Verification of the GhostSignal agent's commit-reveal lifecycle engine.

Shallow embedding of:
  - src/agent/src/commit_reveal.py  (CommitReveal: create_commitment,
    verify_commitment, hash_signal; SHA-256 over the UTF-8 bytes of
    json.dumps(signal, sort_keys=True) + salt)
  - src/agent/src/ghost_agent.py    (GhostAgent: submit_commitment,
    reveal_signal, run_cycle, process_reveals, get_stats)

Modelling conventions:
  - Python dicts/lists that make up a signal are modelled by the mutual
    inductive `Json` below.  Finite floats are not needed by any property
    under study, so the numeric constructor is `int`; the non-finite floats
    NaN / Infinity / -Infinity, which Python's json.dumps serializes as the
    bare tokens NaN / Infinity / -Infinity (allow_nan defaults to True),
    get their own constructors.
  - Randomness (os.urandom salts), the wall clock (time.time()) and the
    network (requests) are external effects: they enter the model as
    explicit arguments (the salt, the `now` timestamp, and the ledger
    client's response as an `Except TransportError _` value).
  - SHA-256 is implemented concretely below (FIPS 180-4), operating on
    byte lists, so every commitment digest in the model is the real one.
-/

set_option maxHeartbeats 1000000
set_option maxRecDepth 16384

/-- Scalar JSON values appearing in a signal dict.  `nan`, `inf`, `neginf`
are the IEEE non-finite doubles, which json.dumps emits as the tokens
`NaN`, `Infinity`, `-Infinity` since allow_nan defaults to True. -/
inductive ScalarJson where
  | str (s : String)
  | int (n : Int)
  | bool (b : Bool)
  | null
  | nan
  | inf
  | neginf
deriving DecidableEq

mutual
/-- A JSON value (a Python object serializable by json.dumps, restricted
to the shapes the agent produces). -/
inductive Json where
  | scalar (s : ScalarJson)
  | arr (items : JsonList)
  | obj (pairs : JsonPairs)

/-- A JSON array's element list. -/
inductive JsonList where
  | nil
  | cons (head : Json) (tail : JsonList)

/-- A JSON object's key/value pairs, in insertion (construction) order,
exactly as a Python dict preserves it. -/
inductive JsonPairs where
  | nil
  | cons (key : String) (val : Json) (tail : JsonPairs)
end

mutual
def jsonDecEq : (a b : Json) → Decidable (a = b)
  | .scalar s, .scalar t =>
    match decEq s t with
    | isTrue h => isTrue (by rw [h])
    | isFalse h => isFalse (fun hc => h (Json.scalar.inj hc))
  | .scalar _, .arr _ => isFalse (fun h => Json.noConfusion h)
  | .scalar _, .obj _ => isFalse (fun h => Json.noConfusion h)
  | .arr _, .scalar _ => isFalse (fun h => Json.noConfusion h)
  | .arr xs, .arr ys =>
    match jsonListDecEq xs ys with
    | isTrue h => isTrue (by rw [h])
    | isFalse h => isFalse (fun hc => h (Json.arr.inj hc))
  | .arr _, .obj _ => isFalse (fun h => Json.noConfusion h)
  | .obj _, .scalar _ => isFalse (fun h => Json.noConfusion h)
  | .obj _, .arr _ => isFalse (fun h => Json.noConfusion h)
  | .obj ps, .obj qs =>
    match jsonPairsDecEq ps qs with
    | isTrue h => isTrue (by rw [h])
    | isFalse h => isFalse (fun hc => h (Json.obj.inj hc))
termination_by structural a => a

def jsonListDecEq : (a b : JsonList) → Decidable (a = b)
  | .nil, .nil => isTrue rfl
  | .nil, .cons _ _ => isFalse (fun h => JsonList.noConfusion h)
  | .cons _ _, .nil => isFalse (fun h => JsonList.noConfusion h)
  | .cons x xs, .cons y ys =>
    match jsonDecEq x y, jsonListDecEq xs ys with
    | isTrue h1, isTrue h2 => isTrue (by rw [h1, h2])
    | isFalse h1, _ => isFalse (fun hc => h1 (JsonList.cons.inj hc).1)
    | _, isFalse h2 => isFalse (fun hc => h2 (JsonList.cons.inj hc).2)
termination_by structural a => a

def jsonPairsDecEq : (a b : JsonPairs) → Decidable (a = b)
  | .nil, .nil => isTrue rfl
  | .nil, .cons _ _ _ => isFalse (fun h => JsonPairs.noConfusion h)
  | .cons _ _ _, .nil => isFalse (fun h => JsonPairs.noConfusion h)
  | .cons k v r, .cons k2 v2 r2 =>
    match decEq k k2, jsonDecEq v v2, jsonPairsDecEq r r2 with
    | isTrue h1, isTrue h2, isTrue h3 => isTrue (by rw [h1, h2, h3])
    | isFalse h1, _, _ => isFalse (fun hc => h1 (JsonPairs.cons.inj hc).1)
    | _, isFalse h2, _ => isFalse (fun hc => h2 (JsonPairs.cons.inj hc).2.1)
    | _, _, isFalse h3 => isFalse (fun hc => h3 (JsonPairs.cons.inj hc).2.2)
termination_by structural a => a
end

instance : DecidableEq Json := jsonDecEq
instance : DecidableEq JsonList := jsonListDecEq
instance : DecidableEq JsonPairs := jsonPairsDecEq

/-- The plain list of key/value pairs of a JSON object, insertion order. -/
def pairsToList : JsonPairs → List (String × Json)
  | .nil => []
  | .cons k v rest => (k, v) :: pairsToList rest

/-- The keys of a JSON object in insertion order. -/
def keysList : JsonPairs → List String
  | .nil => []
  | .cons k _ rest => k :: keysList rest

/-- The lowercase hex digit for a value below 16, as Python formats them. -/
def hexDigitChar (n : Nat) : Char :=
  if n < 10 then Char.ofNat (48 + n) else Char.ofNat (87 + n)

/-- How json.dumps (ensure_ascii=True, the default) escapes one character
inside a JSON string literal. -/
def escapeChar (c : Char) : List Char :=
  let n := c.toNat
  if c = '"' then ['\\', '"']
  else if c = '\\' then ['\\', '\\']
  else if n = 10 then ['\\', 'n']
  else if n = 9 then ['\\', 't']
  else if n = 13 then ['\\', 'r']
  else if n = 8 then ['\\', 'b']
  else if n = 12 then ['\\', 'f']
  else if n < 32 then
    ['\\', 'u', hexDigitChar (n / 4096 % 16), hexDigitChar (n / 256 % 16),
     hexDigitChar (n / 16 % 16), hexDigitChar (n % 16)]
  else if n < 128 then [c]
  else if n < 65536 then
    ['\\', 'u', hexDigitChar (n / 4096 % 16), hexDigitChar (n / 256 % 16),
     hexDigitChar (n / 16 % 16), hexDigitChar (n % 16)]
  else
    let m := n - 65536
    let hi := 55296 + m / 1024
    let lo := 56320 + m % 1024
    ['\\', 'u', hexDigitChar (hi / 4096 % 16), hexDigitChar (hi / 256 % 16),
     hexDigitChar (hi / 16 % 16), hexDigitChar (hi % 16)] ++
    ['\\', 'u', hexDigitChar (lo / 4096 % 16), hexDigitChar (lo / 256 % 16),
     hexDigitChar (lo / 16 % 16), hexDigitChar (lo % 16)]

def escapeChars : List Char → List Char
  | [] => []
  | c :: cs => escapeChar c ++ escapeChars cs

/-- A JSON string literal: double quotes around the escaped characters. -/
def quoteJsonString (s : String) : String :=
  String.mk ('"' :: escapeChars s.data ++ ['"'])

/-- Code-point lexicographic comparison of character lists: how Python
compares strings in sorted(). -/
def charListLe : List Char → List Char → Bool
  | [], _ => true
  | _ :: _, [] => false
  | a :: as, b :: bs =>
    if a.toNat < b.toNat then true
    else if b.toNat < a.toNat then false
    else charListLe as bs

def strLeB (a b : String) : Bool := charListLe a.data b.data

/-- Ordering of serialized key/value pairs by key, as sorted() compares
Python strings (code-point lexicographic). -/
def keyLE (p q : String × String) : Prop := strLeB p.1 q.1 = true

instance : DecidableRel keyLE := fun p q => inferInstanceAs (Decidable (strLeB p.1 q.1 = true))

theorem charListLe_total : ∀ a b : List Char, charListLe a b = true ∨ charListLe b a = true
  | [], _ => Or.inl rfl
  | _ :: _, [] => Or.inr rfl
  | a :: as, b :: bs => by
    rcases Nat.lt_trichotomy a.toNat b.toNat with h | h | h
    · left; simp [charListLe, h]
    · rcases charListLe_total as bs with ih | ih
      · left; simp [charListLe, h, ih]
      · right; simp [charListLe, h.symm, ih]
    · right; simp [charListLe, h]

theorem charListLe_trans : ∀ {a b c : List Char},
    charListLe a b = true → charListLe b c = true → charListLe a c = true
  | [], _, _, _, _ => rfl
  | _ :: _, [], _, hab, _ => by simp [charListLe] at hab
  | _ :: _, _ :: _, [], _, hbc => by simp [charListLe] at hbc
  | a :: as, b :: bs, c :: cs, hab, hbc => by
    simp only [charListLe] at hab hbc ⊢
    by_cases h1 : a.toNat < b.toNat
    · by_cases h2 : b.toNat < c.toNat
      · rw [if_pos (by omega)]
      · by_cases h3 : c.toNat < b.toNat
        · rw [if_neg h2, if_pos h3] at hbc
          exact absurd hbc (by simp)
        · rw [if_pos (by omega)]
    · by_cases h1b : b.toNat < a.toNat
      · rw [if_neg h1, if_pos h1b] at hab
        exact absurd hab (by simp)
      · by_cases h2 : b.toNat < c.toNat
        · rw [if_pos (by omega)]
        · by_cases h3 : c.toNat < b.toNat
          · rw [if_neg h2, if_pos h3] at hbc
            exact absurd hbc (by simp)
          · rw [if_neg h1, if_neg h1b] at hab
            rw [if_neg h2, if_neg h3] at hbc
            rw [if_neg (by omega : ¬ a.toNat < c.toNat),
                if_neg (by omega : ¬ c.toNat < a.toNat)]
            exact charListLe_trans hab hbc

theorem char_toNat_inj {a b : Char} (h : a.toNat = b.toNat) : a = b := by
  apply Char.ext
  exact UInt32.ext h

theorem charListLe_antisymm : ∀ {a b : List Char},
    charListLe a b = true → charListLe b a = true → a = b
  | [], [], _, _ => rfl
  | [], _ :: _, _, hba => by simp [charListLe] at hba
  | _ :: _, [], hab, _ => by simp [charListLe] at hab
  | a :: as, b :: bs, hab, hba => by
    simp only [charListLe] at hab hba
    rcases Nat.lt_trichotomy a.toNat b.toNat with h | h | h
    · rw [if_neg (by omega : ¬ b.toNat < a.toNat), if_pos h] at hba
      exact absurd hba (by simp)
    · rw [if_neg (by omega : ¬ a.toNat < b.toNat),
          if_neg (by omega : ¬ b.toNat < a.toNat)] at hab hba
      rw [char_toNat_inj h, charListLe_antisymm hab hba]
    · rw [if_neg (by omega : ¬ a.toNat < b.toNat), if_pos h] at hab
      exact absurd hab (by simp)

instance : IsTotal (String × String) keyLE :=
  ⟨fun p q => charListLe_total p.1.data q.1.data⟩

instance : IsTrans (String × String) keyLE :=
  ⟨fun _ _ _ h1 h2 => charListLe_trans h1 h2⟩

/-- The key sort performed by json.dumps(..., sort_keys=True). -/
def sortPairs (l : List (String × String)) : List (String × String) :=
  List.insertionSort keyLE l

/-- sep.join(items), the comma-separated joining json.dumps performs with
its default item separator. -/
def joinSep (sep : String) : List String → String
  | [] => ""
  | [x] => x
  | x :: xs => x ++ sep ++ joinSep sep xs

mutual
/-- json.dumps(value, sort_keys=True): default separators (", ", ": "),
keys sorted lexicographically at every object, ensure_ascii escaping,
ints in decimal, and the non-finite floats as NaN / Infinity / -Infinity. -/
def dumps : Json → String
  | .scalar (.str s) => quoteJsonString s
  | .scalar (.int n) => toString n
  | .scalar (.bool b) => if b then "true" else "false"
  | .scalar .null => "null"
  | .scalar .nan => "NaN"
  | .scalar .inf => "Infinity"
  | .scalar .neginf => "-Infinity"
  | .arr items => "[" ++ joinSep ", " (dumpsList items) ++ "]"
  | .obj pairs => "\x7b" ++ joinSep ", "
      ((sortPairs (dumpsPairs pairs)).map
        (fun p => quoteJsonString p.1 ++ ": " ++ p.2)) ++ "\x7d"
termination_by structural j => j

def dumpsList : JsonList → List String
  | .nil => []
  | .cons x xs => dumps x :: dumpsList xs
termination_by structural l => l

def dumpsPairs : JsonPairs → List (String × String)
  | .nil => []
  | .cons k v rest => (k, dumps v) :: dumpsPairs rest
termination_by structural l => l
end

/-! SHA-256 (FIPS 180-4) over byte lists, words as naturals mod 2^32. -/

def M32 : Nat := 4294967296

def rotr32 (n x : Nat) : Nat := ((x >>> n) ||| (x <<< (32 - n))) % M32

/-- The 64 SHA-256 round constants of FIPS 180-4 (written in decimal). -/
def sha256K : List Nat :=
  [1116352408, 1899447441, 3049323471, 3921009573,
   961987163, 1508970993, 2453635748, 2870763221,
   3624381080, 310598401, 607225278, 1426881987,
   1925078388, 2162078206, 2614888103, 3248222580,
   3835390401, 4022224774, 264347078, 604807628,
   770255983, 1249150122, 1555081692, 1996064986,
   2554220882, 2821834349, 2952996808, 3210313671,
   3336571891, 3584528711, 113926993, 338241895,
   666307205, 773529912, 1294757372, 1396182291,
   1695183700, 1986661051, 2177026350, 2456956037,
   2730485921, 2820302411, 3259730800, 3345764771,
   3516065817, 3600352804, 4094571909, 275423344,
   430227734, 506948616, 659060556, 883997877,
   958139571, 1322822218, 1537002063, 1747873779,
   1955562222, 2024104815, 2227730452, 2361852424,
   2428436474, 2756734187, 3204031479, 3329325298]

structure Hash8 where
  a : Nat
  b : Nat
  c : Nat
  d : Nat
  e : Nat
  f : Nat
  g : Nat
  h : Nat

/-- The initial SHA-256 chaining value of FIPS 180-4 (in decimal). -/
def initH : Hash8 :=
  ⟨1779033703, 3144134277, 1013904242, 2773480762,
   1359893119, 2600822924, 528734635, 1541459225⟩

def bytesToWords : List Nat → List Nat
  | b0 :: b1 :: b2 :: b3 :: rest => (((b0 * 256 + b1) * 256 + b2) * 256 + b3) :: bytesToWords rest
  | _ => []

def natToBytesBE : Nat → Nat → List Nat
  | 0, _ => []
  | k + 1, n => natToBytesBE k (n / 256) ++ [n % 256]

/-- Append the 0x80 byte, zero padding to 56 mod 64, and the 64-bit
big-endian bit length. -/
def padMessage (msg : List Nat) : List Nat :=
  let len := msg.length
  let zeros := (120 - ((len + 1) % 64)) % 64
  msg ++ [128] ++ List.replicate zeros 0 ++ natToBytesBE 8 (len * 8)

def chunksGo : Nat → List Nat → List (List Nat)
  | 0, _ => []
  | n + 1, l => l.take 64 :: chunksGo n (l.drop 64)

def chunks64 (l : List Nat) : List (List Nat) := chunksGo ((l.length + 63) / 64) l

def smallSigma0 (x : Nat) : Nat := rotr32 7 x ^^^ rotr32 18 x ^^^ (x >>> 3)
def smallSigma1 (x : Nat) : Nat := rotr32 17 x ^^^ rotr32 19 x ^^^ (x >>> 10)
def bigSigma0 (x : Nat) : Nat := rotr32 2 x ^^^ rotr32 13 x ^^^ rotr32 22 x
def bigSigma1 (x : Nat) : Nat := rotr32 6 x ^^^ rotr32 11 x ^^^ rotr32 25 x
def chFn (e f g : Nat) : Nat := (e &&& f) ^^^ ((e ^^^ 4294967295) &&& g)
def majFn (a b c : Nat) : Nat := (a &&& b) ^^^ (a &&& c) ^^^ (b &&& c)

def extendW : Nat → List Nat → List Nat
  | 0, w => w
  | n + 1, w =>
    let i := w.length
    let next := (w.getD (i - 16) 0 + smallSigma0 (w.getD (i - 15) 0) +
                 w.getD (i - 7) 0 + smallSigma1 (w.getD (i - 2) 0)) % M32
    extendW n (w ++ [next])

def scheduleW (chunk : List Nat) : List Nat := extendW 48 (bytesToWords chunk)

def roundStep (s : Hash8) (kw : Nat × Nat) : Hash8 :=
  let t1 := (s.h + bigSigma1 s.e + chFn s.e s.f s.g + kw.1 + kw.2) % M32
  let t2 := (bigSigma0 s.a + majFn s.a s.b s.c) % M32
  ⟨(t1 + t2) % M32, s.a, s.b, s.c, (s.d + t1) % M32, s.e, s.f, s.g⟩

def processChunk (h : Hash8) (chunk : List Nat) : Hash8 :=
  let s := (sha256K.zip (scheduleW chunk)).foldl roundStep h
  ⟨(h.a + s.a) % M32, (h.b + s.b) % M32, (h.c + s.c) % M32, (h.d + s.d) % M32,
   (h.e + s.e) % M32, (h.f + s.f) % M32, (h.g + s.g) % M32, (h.h + s.h) % M32⟩

def wordHex (w : Nat) : List Char :=
  [hexDigitChar (w / 268435456 % 16), hexDigitChar (w / 16777216 % 16),
   hexDigitChar (w / 1048576 % 16), hexDigitChar (w / 65536 % 16),
   hexDigitChar (w / 4096 % 16), hexDigitChar (w / 256 % 16),
   hexDigitChar (w / 16 % 16), hexDigitChar (w % 16)]

/-- hashlib.sha256(bytes).hexdigest(). -/
def sha256hex (msg : List Nat) : String :=
  let s := (chunks64 (padMessage msg)).foldl processChunk initH
  String.mk (wordHex s.a ++ wordHex s.b ++ wordHex s.c ++ wordHex s.d ++
             wordHex s.e ++ wordHex s.f ++ wordHex s.g ++ wordHex s.h)

def utf8Char (c : Char) : List Nat :=
  let n := c.toNat
  if n < 128 then [n]
  else if n < 2048 then [192 + n / 64, 128 + n % 64]
  else if n < 65536 then [224 + n / 4096, 128 + n / 64 % 64, 128 + n % 64]
  else [240 + n / 262144, 128 + n / 4096 % 64, 128 + n / 64 % 64, 128 + n % 64]

def utf8Bytes : List Char → List Nat
  | [] => []
  | c :: cs => utf8Char c ++ utf8Bytes cs

/-- str.encode("utf-8"). -/
def utf8Encode (s : String) : List Nat := utf8Bytes s.data

/-! CommitReveal (src/agent/src/commit_reveal.py).  The salt is an explicit
argument: Python generates one with os.urandom(32).hex() when the caller
passes None, and that randomness is external to the model. -/

/-- CommitReveal.create_commitment: payload = json.dumps(signal,
sort_keys=True) + salt; hash = sha256(payload.encode("utf-8")).hexdigest();
returns (commitment_hash, salt). -/
def create_commitment (signal : Json) (salt : String) : String × String :=
  let payload := dumps signal ++ salt
  (sha256hex (utf8Encode payload), salt)

/-- CommitReveal.verify_commitment: recompute the payload hash and compare
with the given commitment hash. -/
def verify_commitment (commitment_hash : String) (signal : Json) (salt : String) : Bool :=
  let payload := dumps signal ++ salt
  sha256hex (utf8Encode payload) == commitment_hash

/-- CommitReveal.hash_signal: the payload hash by itself. -/
def hash_signal (signal : Json) (salt : String) : String :=
  sha256hex (utf8Encode (dumps signal ++ salt))

/-- A 64-character lowercase-hex string, the shape of every SHA-256
hexdigest. -/
def isHexChar (c : Char) : Bool :=
  (48 ≤ c.toNat && c.toNat ≤ 57) || (97 ≤ c.toNat && c.toNat ≤ 102)

def isWellFormedDigest (s : String) : Bool :=
  s.length == 64 && s.data.all isHexChar

/-! GhostAgent (src/agent/src/ghost_agent.py). -/

/-- The configuration fields the lifecycle engine reads (AgentConfig). -/
structure AgentConfig where
  name : String
  default_stake : Int
  reveal_delay : Int
  max_active_commitments : Nat
  min_confidence : Int
deriving DecidableEq

/-- ActiveCommitment: one outstanding commitment awaiting reveal. -/
structure ActiveCommitment where
  commitment_id : String
  commitment_hash : String
  salt : String
  signal : Json
  stake : Int
  committed_at : Int
  reveal_after : Int
deriving DecidableEq

/-- The GhostAgent's mutable state. -/
structure GhostAgent where
  config : AgentConfig
  active_commitments : List ActiveCommitment
  total_committed : Nat
  total_revealed : Nat
  total_verified : Nat
deriving DecidableEq

/-- A transport-level failure (requests raising an exception). -/
structure TransportError where
  message : String
deriving DecidableEq

/-- The ledger client's response to a commit: the response dict may or may
not contain a "commitment_id" entry. -/
structure CommitResponse where
  commitment_id : Option String
deriving DecidableEq

/-- The ledger client's response to a reveal. -/
structure RevealResponse where
  verified : Bool
deriving DecidableEq

/-- GhostAgent.submit_commitment.  The ledger client's behavior
(MidnightClient.commit_signal returning a dict, or raising) is the
`clientResult` argument.  On a response, the stored id is
result.get("commitment_id", str(self.total_committed)) and
total_committed is incremented; on an exception, nothing changes and
None is returned. -/
def submit_commitment (a : GhostAgent) (commitment_hash : String) (stake : Int)
    (clientResult : Except TransportError CommitResponse) : GhostAgent × Option String :=
  match clientResult with
  | .ok result =>
    let commitment_id := result.commitment_id.getD (toString a.total_committed)
    ({ a with total_committed := a.total_committed + 1 }, some commitment_id)
  | .error _ => (a, none)

/-- GhostAgent.reveal_signal.  On a client response, total_revealed is
incremented and the result returned; on an exception, nothing changes and
None is returned. -/
def reveal_signal (a : GhostAgent) (commitment_id : String) (signal : Json) (salt : String)
    (clientResult : Except TransportError RevealResponse) : GhostAgent × Option RevealResponse :=
  match clientResult with
  | .ok result => ({ a with total_revealed := a.total_revealed + 1 }, some result)
  | .error _ => (a, none)

/-- The confidence field of a signal dict, when present and an int
(signal["confidence"], as the strategies produce it). -/
def lookupPair : JsonPairs → String → Option Json
  | .nil, _ => none
  | .cons k v rest, key => if k = key then some v else lookupPair rest key

def getConfidence (signal : Json) : Option Int :=
  match signal with
  | .obj ps =>
    match lookupPair ps "confidence" with
    | some (.scalar (.int n)) => some n
    | _ => none
  | _ => none

/-- The external inputs one run_cycle call consumes: the generated signal,
the generated salt, the ledger client's response, and the current time. -/
structure CycleInput where
  signal : Json
  salt : String
  clientResult : Except TransportError CommitResponse
  now : Int

/-- GhostAgent.run_cycle: skip when at the active-commitment limit; skip a
signal below the confidence threshold (and a cycle whose signal lacks an
int confidence aborts with an uncaught exception before mutating state);
otherwise create and submit the commitment and, on success, append the
new ActiveCommitment with reveal_after = now + reveal_delay. -/
def run_cycle (a : GhostAgent) (input : CycleInput) : GhostAgent :=
  if a.active_commitments.length ≥ a.config.max_active_commitments then a
  else
    match getConfidence input.signal with
    | none => a
    | some conf =>
      if conf < a.config.min_confidence then a
      else
        let hs := create_commitment input.signal input.salt
        let res := submit_commitment a hs.1 a.config.default_stake input.clientResult
        match res.2 with
        | some cid =>
          { res.1 with active_commitments := res.1.active_commitments ++
              [{ commitment_id := cid
                 commitment_hash := hs.1
                 salt := hs.2
                 signal := input.signal
                 stake := a.config.default_stake
                 committed_at := input.now
                 reveal_after := input.now + a.config.reveal_delay }] }
        | none => res.1

/-- The commitments eligible for reveal at `now`, in the order
process_reveals visits them: the active list's own (insertion) order,
filtered by now >= reveal_after. -/
def readyList (a : GhostAgent) (now : Int) : List ActiveCommitment :=
  a.active_commitments.filter (fun c => decide (c.reveal_after ≤ now))

def isOkB (r : Except TransportError RevealResponse) : Bool :=
  match r with
  | .ok _ => true
  | .error _ => false

/-- One iteration of the process_reveals loop: call reveal_signal, and on a
non-None result remove (list.remove: first equal element) the commitment
from the active list. -/
def revealStep (respond : ActiveCommitment → Except TransportError RevealResponse)
    (st : GhostAgent) (c : ActiveCommitment) : GhostAgent :=
  let r := reveal_signal st c.commitment_id c.signal c.salt (respond c)
  match r.2 with
  | some _ => { r.1 with active_commitments := r.1.active_commitments.erase c }
  | none => r.1

/-- GhostAgent.process_reveals.  `respond` is the ledger client's behavior
on each disclose attempt. -/
def process_reveals (a : GhostAgent) (now : Int)
    (respond : ActiveCommitment → Except TransportError RevealResponse) : GhostAgent :=
  (readyList a now).foldl (revealStep respond) a

/-- The stats dict GhostAgent.get_stats builds; win_rate is the Python
float expression (total_verified / total_revealed * 100) if
total_revealed > 0 else 0.0, modelled over ℚ. -/
structure Stats where
  name : String
  total_committed : Nat
  total_revealed : Nat
  total_verified : Nat
  active_commitments : Nat
  win_rate : ℚ
deriving DecidableEq

def get_stats (a : GhostAgent) : Stats :=
  { name := a.config.name
    total_committed := a.total_committed
    total_revealed := a.total_revealed
    total_verified := a.total_verified
    active_commitments := a.active_commitments.length
    win_rate :=
      if 0 < a.total_revealed
      then (a.total_verified : ℚ) / (a.total_revealed : ℚ) * 100
      else 0 }

/-- Modelled from the spec: the disclosure ordering the spec prescribes for
simultaneously eligible commitments — ascending reveal_at, ties broken by
ascending id.  Stated only to compare with the order the code actually
uses. -/
def specRevealLE (c d : ActiveCommitment) : Prop :=
  c.reveal_after < d.reveal_after ∨
    (c.reveal_after = d.reveal_after ∧ strLeB c.commitment_id d.commitment_id = true)

instance : DecidableRel specRevealLE := fun c d =>
  inferInstanceAs (Decidable (_ ∨ _))

/-- Modelled from the spec: eligible commitments sorted by
(reveal_at, id). -/
def specOrderedReveals (l : List ActiveCommitment) : List ActiveCommitment :=
  List.insertionSort specRevealLE l

/-- Does a string list contain a given key (Python's `in`)? -/
def containsKey : List String → String → Bool
  | [], _ => false
  | x :: xs, k => (x == k) || containsKey xs k

/-- Are all keys in the list distinct?  Always true of the key list of an
actual Python dict. -/
def keysNodupB : List String → Bool
  | [] => true
  | k :: rest => !(containsKey rest k) && keysNodupB rest

mutual
/-- Every object nested anywhere in the value has pairwise-distinct keys —
automatic for values built from Python dicts. -/
def nodupKeys : Json → Bool
  | .scalar _ => true
  | .arr items => nodupKeysList items
  | .obj ps => keysNodupB (keysList ps) && nodupKeysPairs ps
termination_by structural j => j

def nodupKeysList : JsonList → Bool
  | .nil => true
  | .cons x xs => nodupKeys x && nodupKeysList xs
termination_by structural l => l

def nodupKeysPairs : JsonPairs → Bool
  | .nil => true
  | .cons _ v rest => nodupKeys v && nodupKeysPairs rest
termination_by structural l => l
end

mutual
/-- Two JSON values with identical key/value pairs where, at every nesting
level, an object's keys may appear in a different order.  This is the
relation the key-order-invariance property quantifies over. -/
inductive PermEquiv : Json → Json → Prop where
  | scalar (s : ScalarJson) : PermEquiv (.scalar s) (.scalar s)
  | arr {xs ys : JsonList} : PermEquivList xs ys → PermEquiv (.arr xs) (.arr ys)
  | obj {ps mid qs : JsonPairs} : PermEquivPairs ps mid →
      List.Perm (pairsToList mid) (pairsToList qs) → PermEquiv (.obj ps) (.obj qs)

/-- Pointwise PermEquiv on array elements. -/
inductive PermEquivList : JsonList → JsonList → Prop where
  | nil : PermEquivList .nil .nil
  | cons {x y : Json} {xs ys : JsonList} :
      PermEquiv x y → PermEquivList xs ys → PermEquivList (.cons x xs) (.cons y ys)

/-- Pointwise PermEquiv on object pairs with identical keys in place. -/
inductive PermEquivPairs : JsonPairs → JsonPairs → Prop where
  | nil : PermEquivPairs .nil .nil
  | cons (k : String) {v w : Json} {ps qs : JsonPairs} :
      PermEquiv v w → PermEquivPairs ps qs →
      PermEquivPairs (.cons k v ps) (.cons k w qs)
end

/-! Concrete sample data for the closed instances below. -/

def cfgEx : AgentConfig :=
  { name := "GhostAgent-Alpha", default_stake := 100, reveal_delay := 60,
    max_active_commitments := 5, min_confidence := 60 }

def sigEx : Json :=
  Json.obj (.cons "confidence" (.scalar (.int 80))
    (.cons "direction" (.scalar (.str "BUY"))
      (.cons "pair" (.scalar (.str "BTC/USD")) .nil)))

def acEx (id : String) (ra : Int) : ActiveCommitment :=
  { commitment_id := id, commitment_hash := "h", salt := "s", signal := sigEx,
    stake := 100, committed_at := 0, reveal_after := ra }

def agentC1 : GhostAgent :=
  { config := { cfgEx with max_active_commitments := 1 },
    active_commitments := [acEx "x" 60], total_committed := 1,
    total_revealed := 0, total_verified := 0 }

def inpC1 : CycleInput :=
  { signal := sigEx, salt := "00", clientResult := .ok { commitment_id := some "c1" },
    now := 0 }

def agentC2 : GhostAgent :=
  { config := cfgEx, active_commitments := [acEx "a" 0], total_committed := 1,
    total_revealed := 0, total_verified := 0 }

def sigC4 : Json := Json.obj (.cons "direction" (.scalar (.str "buy")) .nil)

def sigC4m : Json := Json.obj (.cons "direction" (.scalar (.str "sell")) .nil)

def sigC5a : Json :=
  Json.obj (.cons "pair" (.scalar (.str "BTC/USD"))
    (.cons "direction" (.scalar (.str "buy"))
      (.cons "confidence" (.scalar (.int 50)) .nil)))

def sigC5b : Json :=
  Json.obj (.cons "confidence" (.scalar (.int 50))
    (.cons "direction" (.scalar (.str "buy"))
      (.cons "pair" (.scalar (.str "BTC/USD")) .nil)))

def sigC6 : Json := Json.obj (.cons "x" (.scalar .nan) .nil)

def saltC6 : String := String.mk (List.replicate 64 (Char.ofNat 48))

def agentC7 : GhostAgent :=
  { config := cfgEx, active_commitments := [], total_committed := 3,
    total_revealed := 2, total_verified := 1 }

def agentC7b : GhostAgent :=
  { config := cfgEx, active_commitments := [], total_committed := 0,
    total_revealed := 0, total_verified := 0 }

def agentC8 : GhostAgent :=
  { config := cfgEx, active_commitments := [acEx "b" 0, acEx "a" 0],
    total_committed := 2, total_revealed := 0, total_verified := 0 }

def agentC9 : GhostAgent :=
  { config := cfgEx, active_commitments := [], total_committed := 7,
    total_revealed := 0, total_verified := 0 }

/-! Cross-validation of the embedding against the reference behavior of
json.dumps and hashlib.sha256 on pinned inputs. -/

theorem dumps_pinned_nested :
    dumps (Json.obj (.cons "b" (.scalar (.int 1))
      (.cons "a" (.obj (.cons "d" (.scalar (.int 2))
        (.cons "c" (.arr (.cons (.scalar (.bool true))
          (.cons (.scalar .null) (.cons (.scalar (.str "héy")) .nil)))) .nil))) .nil)))
      = "\x7b\"a\": \x7b\"c\": [true, null, \"h\\u00e9y\"], \"d\": 2\x7d, \"b\": 1\x7d" := by
  decide

theorem sha256hex_pinned_empty :
    sha256hex (utf8Encode "") =
      "e3b0c44298fc1c149afbf4c8996fb92427ae41e4649b934ca495991b7852b855" := by
  decide

theorem sha256hex_pinned_payload :
    sha256hex (utf8Encode "\x7b\"direction\": \"buy\"\x7d00") =
      "db86ab959a208eed0368f630c83f14e4887e09a2d68bc64b8cd7391b2859bcb9" := by
  decide

/-! Helper lemmas about the engine operations. -/

theorem submit_commitment_active (a : GhostAgent) (ch : String) (stake : Int)
    (r : Except TransportError CommitResponse) :
    (submit_commitment a ch stake r).1.active_commitments = a.active_commitments := by
  cases r <;> rfl

theorem reveal_signal_active (a : GhostAgent) (cid : String) (sig : Json) (salt : String)
    (r : Except TransportError RevealResponse) :
    (reveal_signal a cid sig salt r).1.active_commitments = a.active_commitments := by
  cases r <;> rfl

theorem run_cycle_shape (a : GhostAgent) (inp : CycleInput) :
    run_cycle a inp = a ∨
    (a.active_commitments.length < a.config.max_active_commitments ∧
     ∃ rec, run_cycle a inp = { a with
        total_committed := a.total_committed + 1,
        active_commitments := a.active_commitments ++ [rec] }) := by
  obtain ⟨sig, salt, cr, now⟩ := inp
  cases cr with
  | error e =>
    left
    unfold run_cycle
    split
    · rfl
    split
    · rfl
    split
    · rfl
    · rfl
  | ok r =>
    unfold run_cycle
    split
    · left; rfl
    split
    · left; rfl
    split
    · left; rfl
    · right
      rename_i hcap _ _
      exact ⟨by omega, _, rfl⟩

theorem run_cycle_config (a : GhostAgent) (inp : CycleInput) :
    (run_cycle a inp).config = a.config := by
  rcases run_cycle_shape a inp with h | ⟨_, _, h⟩ <;> rw [h]

theorem run_cycle_length_le (a : GhostAgent) (inp : CycleInput)
    (h : a.active_commitments.length ≤ a.config.max_active_commitments) :
    (run_cycle a inp).active_commitments.length ≤ a.config.max_active_commitments := by
  rcases run_cycle_shape a inp with hs | ⟨hlt, _, hs⟩ <;> rw [hs]
  · exact h
  · simp only [List.length_append, List.length_cons, List.length_nil]
    omega

theorem foldl_run_cycle_inv (inputs : List CycleInput) : ∀ a : GhostAgent,
    a.active_commitments.length ≤ a.config.max_active_commitments →
    (inputs.foldl run_cycle a).config = a.config ∧
    (inputs.foldl run_cycle a).active_commitments.length
      ≤ a.config.max_active_commitments := by
  induction inputs with
  | nil => exact fun a h => ⟨rfl, h⟩
  | cons x xs ih =>
    intro a h
    rw [List.foldl_cons]
    have h1 := run_cycle_length_le a x h
    have h2 := run_cycle_config a x
    obtain ⟨ih1, ih2⟩ := ih (run_cycle a x) (by rw [h2]; exact h1)
    rw [h2] at ih1 ih2
    exact ⟨ih1, ih2⟩

/-- C1: over any sequence of run_cycle calls, the number of active
commitment records never exceeds max_active_commitments; a cycle begun
with the active count at (or beyond) the limit returns with the state
unchanged, and with max_active_commitments = 0 every cycle is rejected. -/
theorem run_cycle_capacity_invariant (a : GhostAgent) (inputs : List CycleInput)
    (inp : CycleInput)
    (h : a.active_commitments.length ≤ a.config.max_active_commitments) :
    (inputs.foldl run_cycle a).active_commitments.length
      ≤ a.config.max_active_commitments ∧
    (a.active_commitments.length ≥ a.config.max_active_commitments →
      run_cycle a inp = a) ∧
    (a.config.max_active_commitments = 0 → run_cycle a inp = a) := by
  refine ⟨(foldl_run_cycle_inv inputs a h).2, fun hcap => ?_, fun h0 => ?_⟩
  · unfold run_cycle
    rw [if_pos hcap]
  · unfold run_cycle
    rw [if_pos (by omega)]

/-- Witness for C1 at a concrete agent already holding its single allowed
commitment: the fold keeps the count at the limit and the cycle at
capacity is a no-op. -/
theorem run_cycle_capacity_invariant_witness :
    ([inpC1].foldl run_cycle agentC1).active_commitments.length
      ≤ agentC1.config.max_active_commitments ∧
    (agentC1.active_commitments.length ≥ agentC1.config.max_active_commitments →
      run_cycle agentC1 inpC1 = agentC1) ∧
    (agentC1.config.max_active_commitments = 0 → run_cycle agentC1 inpC1 = agentC1) :=
  run_cycle_capacity_invariant agentC1 [inpC1] inpC1 (by decide)

/-- C3: when the ledger client's publish call raises, submit_commitment
returns the failure (None) and leaves the agent unchanged, and the whole
run_cycle leaves every part of the engine state unchanged — no record is
created. -/
theorem submit_transport_failure_unchanged (a : GhostAgent) (ch : String)
    (stake : Int) (e : TransportError) (sig : Json) (salt : String) (now : Int) :
    submit_commitment a ch stake (Except.error e) = (a, none) ∧
    run_cycle a ⟨sig, salt, Except.error e, now⟩ = a := by
  constructor
  · rfl
  · unfold run_cycle
    split
    · rfl
    split
    · rfl
    split
    · rfl
    · rfl

/-- C10: total_committed is incremented exactly when the client's commit
call returns without raising (and submit reports failure otherwise), and
total_revealed is incremented exactly when the client's reveal call
returns without raising. -/
theorem counters_track_client_success (a : GhostAgent) (ch salt cid : String)
    (sig : Json) (stake : Int) (r : CommitResponse) (rr : RevealResponse)
    (e e2 : TransportError) :
    (submit_commitment a ch stake (Except.ok r)).1.total_committed
      = a.total_committed + 1 ∧
    (submit_commitment a ch stake (Except.error e)).1.total_committed
      = a.total_committed ∧
    (submit_commitment a ch stake (Except.error e)).2 = none ∧
    (reveal_signal a cid sig salt (Except.ok rr)).1.total_revealed
      = a.total_revealed + 1 ∧
    (reveal_signal a cid sig salt (Except.error e2)).1.total_revealed
      = a.total_revealed ∧
    (reveal_signal a cid sig salt (Except.error e2)).2 = none :=
  ⟨rfl, rfl, rfl, rfl, rfl, rfl⟩

/-- C9 counterexample: a successful submit whose ledger response carries no
commitment_id stores an id the engine assigned itself —
str(total_committed), here "7" — so the stored id is not an id returned
by the publish operation. -/
theorem submit_engine_assigned_id_cex :
    (submit_commitment agentC9 "deadbeef" 100
        (Except.ok { commitment_id := none })).2 = some "7" ∧
    (run_cycle agentC9
        { signal := sigEx, salt := "00",
          clientResult := Except.ok { commitment_id := none }, now := 0 }
      ).active_commitments.map (fun c => c.commitment_id) = ["7"] := by
  constructor
  · decide
  · decide

/-- C9 amended: when the publish response contains a commitment_id the
stored id is exactly that id; when the response lacks one, the engine
falls back to assigning str(total_committed) itself. -/
theorem submit_id_from_ledger_when_present (a : GhostAgent) (ch : String)
    (stake : Int) (r : CommitResponse) (i : String)
    (hr : r.commitment_id = some i) :
    (submit_commitment a ch stake (Except.ok r)).2 = some i ∧
    (submit_commitment a ch stake (Except.ok { commitment_id := none })).2
      = some (toString a.total_committed) := by
  constructor
  · simp [submit_commitment, hr]
  · rfl

/-- Witness for C9's amended statement at a concrete response carrying
id "c-123". -/
theorem submit_id_from_ledger_when_present_witness :
    (submit_commitment agentC9 "deadbeef" 100
        (Except.ok { commitment_id := some "c-123" })).2 = some "c-123" ∧
    (submit_commitment agentC9 "deadbeef" 100
        (Except.ok { commitment_id := none })).2
      = some (toString agentC9.total_committed) :=
  submit_id_from_ledger_when_present agentC9 "deadbeef" 100
    { commitment_id := some "c-123" } "c-123" rfl

/-- C7 counterexample: with 1 verified out of 2 revealed, get_stats reports
win_rate 50 (a percentage), not verified / revealed = 1/2. -/
theorem get_stats_win_rate_cex :
    (get_stats agentC7).win_rate
      ≠ (agentC7.total_verified : ℚ) / (agentC7.total_revealed : ℚ) := by
  norm_num [get_stats, agentC7]

/-- C7 amended: win_rate is the percentage verified / revealed * 100 when
revealed > 0 and the defined value 0 when revealed = 0; get_stats is a
pure function of the state. -/
theorem get_stats_win_rate_percentage (a b : GhostAgent)
    (ha : 0 < a.total_revealed) (hb : b.total_revealed = 0) :
    (get_stats a).win_rate
      = (a.total_verified : ℚ) / (a.total_revealed : ℚ) * 100 ∧
    (get_stats b).win_rate = 0 := by
  constructor
  · simp [get_stats, ha]
  · simp [get_stats, hb]

/-- Witness for C7's amended statement at concrete counter values. -/
theorem get_stats_win_rate_percentage_witness :
    (get_stats agentC7).win_rate
      = (agentC7.total_verified : ℚ) / (agentC7.total_revealed : ℚ) * 100 ∧
    (get_stats agentC7b).win_rate = 0 :=
  get_stats_win_rate_percentage agentC7 agentC7b (by decide) rfl

/-- C8 counterexample: two eligible commitments with equal reveal_after and
ids "b" then "a" (in insertion order) are processed in insertion order,
not in the ascending-id order the spec's tie-break prescribes. -/
theorem reveal_order_not_id_tiebreak_cex :
    readyList agentC8 0 ≠ specOrderedReveals (readyList agentC8 0) := by
  decide

/-- C8 amended: eligible commitments are processed in the order they occupy
in the active list (its insertion order); in particular when that list has
nondecreasing reveal_after — as successive appends with a fixed
reveal_delay produce — the processing order is oldest-first, but no id
tie-break is applied. -/
theorem process_reveals_list_order (a : GhostAgent) (now : Int)
    (h : a.active_commitments.Pairwise (fun c d => c.reveal_after ≤ d.reveal_after)) :
    (readyList a now).Sublist a.active_commitments ∧
    (readyList a now).Pairwise (fun c d => c.reveal_after ≤ d.reveal_after) :=
  ⟨List.filter_sublist _, h.sublist (List.filter_sublist _)⟩

/-- Witness for C8's amended statement on a concrete sorted active list. -/
theorem process_reveals_list_order_witness :
    (readyList agentC2 0).Sublist agentC2.active_commitments ∧
    (readyList agentC2 0).Pairwise (fun c d => c.reveal_after ≤ d.reveal_after) :=
  process_reveals_list_order agentC2 0 (by decide)

theorem revealStep_count (respond : ActiveCommitment → Except TransportError RevealResponse)
    (st : GhostAgent) (x c : ActiveCommitment) :
    ((revealStep respond st x).active_commitments.count c)
      = st.active_commitments.count c
        - (if isOkB (respond x) then (if x == c then 1 else 0) else 0) := by
  unfold revealStep
  cases hr : respond x with
  | ok r =>
    simp only [reveal_signal, isOkB, if_pos]
    rw [List.count_erase]
  | error e =>
    simp [reveal_signal, isOkB]

theorem foldl_revealStep_count
    (respond : ActiveCommitment → Except TransportError RevealResponse)
    (c : ActiveCommitment) :
    ∀ (l : List ActiveCommitment) (st : GhostAgent),
    ((l.foldl (revealStep respond) st).active_commitments.count c)
      = st.active_commitments.count c
        - (if isOkB (respond c) then l.count c else 0) := by
  intro l
  induction l with
  | nil =>
    intro st
    simp
  | cons x xs ih =>
    intro st
    rw [List.foldl_cons, ih, revealStep_count]
    by_cases hxc : x == c
    · have hx : x = c := by simpa using hxc
      subst hx
      by_cases hok : isOkB (respond x)
      · simp only [hok, if_pos, List.count_cons, hxc]
        omega
      · simp [hok]
    · have hcount : (x :: xs).count c = xs.count c := by
        simp [List.count_cons, hxc]
      rw [hcount]
      simp [hxc]

/-- C2: a tick at time `now` never discloses a commitment with
reveal_after > now and leaves its multiplicity in the active set
untouched; an eligible commitment is attempted exactly as many times as it
occurs in the active set (once, when it occurs once); after a failed
disclose attempt it remains with unchanged multiplicity (neither removed
nor duplicated); after a successful disclose it is removed from the
active set. -/
theorem process_reveals_eligibility_exactly_once (a : GhostAgent) (now : Int)
    (respond : ActiveCommitment → Except TransportError RevealResponse)
    (c : ActiveCommitment) (hmem : c ∈ a.active_commitments) :
    (now < c.reveal_after →
      c ∉ readyList a now ∧
      (process_reveals a now respond).active_commitments.count c
        = a.active_commitments.count c) ∧
    (c.reveal_after ≤ now →
      (readyList a now).count c = a.active_commitments.count c ∧
      (isOkB (respond c) = false →
        (process_reveals a now respond).active_commitments.count c
          = a.active_commitments.count c) ∧
      (isOkB (respond c) = true →
        (process_reveals a now respond).active_commitments.count c = 0)) := by
  have hmem2 := hmem
  constructor
  · intro hlate
    have hnotin : c ∉ readyList a now := by
      intro hin
      have := List.of_mem_filter hin
      simp at this
      omega
    refine ⟨hnotin, ?_⟩
    rw [process_reveals, foldl_revealStep_count]
    have h0 : (readyList a now).count c = 0 := List.count_eq_zero.mpr hnotin
    rw [h0]
    split <;> omega
  · intro hel
    have hcf : (readyList a now).count c = a.active_commitments.count c := by
      unfold readyList
      exact List.count_filter (by simpa using hel)
    refine ⟨hcf, fun hfail => ?_, fun hok => ?_⟩
    · rw [process_reveals, foldl_revealStep_count, hfail]
      simp
    · rw [process_reveals, foldl_revealStep_count, hok, if_pos rfl, hcf]
      omega

/-- Witness for C2 at a concrete one-commitment agent whose commitment is
eligible and whose disclose succeeds. -/
theorem process_reveals_eligibility_exactly_once_witness :
    (0 < (acEx "a" 0).reveal_after →
      acEx "a" 0 ∉ readyList agentC2 0 ∧
      (process_reveals agentC2 0
          (fun _ => Except.ok { verified := true })).active_commitments.count (acEx "a" 0)
        = agentC2.active_commitments.count (acEx "a" 0)) ∧
    ((acEx "a" 0).reveal_after ≤ 0 →
      (readyList agentC2 0).count (acEx "a" 0)
        = agentC2.active_commitments.count (acEx "a" 0) ∧
      (isOkB ((fun _ => Except.ok { verified := true }) (acEx "a" 0)) = false →
        (process_reveals agentC2 0
            (fun _ => Except.ok { verified := true })).active_commitments.count (acEx "a" 0)
          = agentC2.active_commitments.count (acEx "a" 0)) ∧
      (isOkB ((fun _ => Except.ok { verified := true }) (acEx "a" 0)) = true →
        (process_reveals agentC2 0
            (fun _ => Except.ok { verified := true })).active_commitments.count (acEx "a" 0)
          = 0)) :=
  process_reveals_eligibility_exactly_once agentC2 0
    (fun _ => Except.ok { verified := true }) (acEx "a" 0) (by decide)

/-- C4: verify_commitment accepts the originating (decision, secret) pair
and rejects any mutated digest unconditionally; it rejects a mutated
decision or mutated secret whenever the mutation changes the payload hash
— the collision-freeness instances of SHA-256 that the commitment scheme
relies on, stated here as explicit hypotheses and discharged concretely in
the witness. -/
theorem verify_commitment_tamper_detection (d d2 : Json) (s s2 g : String)
    (hd : d2 ≠ d) (hs : s2 ≠ s)
    (hg : g ≠ (create_commitment d s).1)
    (hcol1 : hash_signal d2 s ≠ hash_signal d s)
    (hcol2 : hash_signal d s2 ≠ hash_signal d s) :
    verify_commitment (create_commitment d s).1 d s = true ∧
    verify_commitment g d s = false ∧
    verify_commitment (create_commitment d s).1 d2 s = false ∧
    verify_commitment (create_commitment d s).1 d s2 = false := by
  refine ⟨?_, ?_, ?_, ?_⟩
  · simp [verify_commitment, create_commitment]
  · simp only [verify_commitment, create_commitment, beq_eq_false_iff_ne, ne_eq]
    exact fun hc => hg hc.symm
  · simp only [verify_commitment, create_commitment, hash_signal, beq_eq_false_iff_ne, ne_eq] at hcol1 ⊢
    exact hcol1
  · simp only [verify_commitment, create_commitment, hash_signal, beq_eq_false_iff_ne, ne_eq] at hcol2 ⊢
    exact hcol2

/-- Witness for C4: a one-field decision, its single-field mutation, a
mutated salt and a mutated digest, with the hash inequalities computed. -/
theorem verify_commitment_tamper_detection_witness :
    verify_commitment (create_commitment sigC4 "00").1 sigC4 "00" = true ∧
    verify_commitment "" sigC4 "00" = false ∧
    verify_commitment (create_commitment sigC4 "00").1 sigC4m "00" = false ∧
    verify_commitment (create_commitment sigC4 "00").1 sigC4 "01" = false :=
  verify_commitment_tamper_detection sigC4 sigC4m "00" "01" ""
    (by decide) (by decide) (by decide) (by decide) (by decide)

theorem isHexChar_hexDigitChar (n : Nat) (h : n < 16) :
    isHexChar (hexDigitChar n) = true := by
  interval_cases n <;> decide

theorem wordHex_all_hex (w : Nat) : (wordHex w).all isHexChar = true := by
  have h16 : ∀ m : Nat, m % 16 < 16 := fun m => Nat.mod_lt _ (by norm_num)
  simp only [wordHex, List.all_cons, List.all_nil, Bool.and_eq_true, Bool.and_true]
  refine ⟨?_, ?_, ?_, ?_, ?_, ?_, ?_, ?_⟩ <;> exact isHexChar_hexDigitChar _ (h16 _)

theorem sha256hex_wellformed (msg : List Nat) :
    isWellFormedDigest (sha256hex msg) = true := by
  unfold sha256hex isWellFormedDigest
  rw [Bool.and_eq_true]
  constructor
  · show ((String.mk _).length == 64) = true
    simp [String.length, wordHex]
  · show (String.mk _).data.all isHexChar = true
    simp only [String.data]
    simp only [List.all_append, Bool.and_eq_true]
    exact ⟨⟨⟨⟨⟨⟨⟨wordHex_all_hex _, wordHex_all_hex _⟩, wordHex_all_hex _⟩,
      wordHex_all_hex _⟩, wordHex_all_hex _⟩, wordHex_all_hex _⟩,
      wordHex_all_hex _⟩, wordHex_all_hex _⟩

/-- C6 counterexample: a decision containing the non-finite number NaN is
serialized by json.dumps (allow_nan defaults to True) as the token NaN —
no error is raised — and create_commitment returns a well-formed
64-hex-character digest for it. -/
theorem create_commitment_nan_digest_cex :
    dumps sigC6 = "\x7b\"x\": NaN\x7d" ∧
    isWellFormedDigest (create_commitment sigC6 saltC6).1 = true := by
  constructor
  · rfl
  · decide

/-- C6 amended: for every representable decision — including every decision
containing non-finite numbers, which serialize as the tokens NaN /
Infinity / -Infinity — create_commitment does not fail: it returns a
well-formed 64-lowercase-hex digest.  (Only non-serializable inputs such
as cyclic structures, which no inductive Json value can represent, make
json.dumps raise, and then no digest is produced.) -/
theorem create_commitment_always_wellformed_digest (d : Json) (salt : String) :
    isWellFormedDigest (create_commitment d salt).1 = true :=
  sha256hex_wellformed _

theorem strLeB_antisymm {a b : String} (h1 : strLeB a b = true)
    (h2 : strLeB b a = true) : a = b := by
  have h := charListLe_antisymm h1 h2
  cases a
  cases b
  exact congrArg String.mk h

theorem sortPairs_eq_of_perm {l1 l2 : List (String × String)}
    (hp : l1.Perm l2) (hnd : (l1.map Prod.fst).Nodup) :
    sortPairs l1 = sortPairs l2 := by
  have hperm : (sortPairs l1).Perm (sortPairs l2) :=
    (List.perm_insertionSort keyLE l1).trans
      (hp.trans (List.perm_insertionSort keyLE l2).symm)
  have hs1 : (sortPairs l1).Sorted keyLE := List.sorted_insertionSort keyLE l1
  have hs2 : (sortPairs l2).Sorted keyLE := List.sorted_insertionSort keyLE l2
  have hnd1 : (sortPairs l1).Pairwise (fun p q => p.1 ≠ q.1) := by
    have hmap : ((sortPairs l1).map Prod.fst).Perm (l1.map Prod.fst) :=
      (List.perm_insertionSort keyLE l1).map Prod.fst
    exact List.pairwise_map.mp (hmap.nodup_iff.mpr hnd)
  have hnd2 : (sortPairs l2).Pairwise (fun p q => p.1 ≠ q.1) := by
    have hmap : ((sortPairs l2).map Prod.fst).Perm (l1.map Prod.fst) :=
      ((List.perm_insertionSort keyLE l2).map Prod.fst).trans (hp.map Prod.fst).symm
    exact List.pairwise_map.mp (hmap.nodup_iff.mpr hnd)
  haveI : IsAntisymm (String × String) (fun p q => keyLE p q ∧ p.1 ≠ q.1) :=
    ⟨fun p q h1 h2 => absurd (strLeB_antisymm h1.1 h2.1) h1.2⟩
  exact List.eq_of_perm_of_sorted hperm (hs1.and hnd1) (hs2.and hnd2)

theorem dumpsPairs_toList : ∀ ps : JsonPairs,
    dumpsPairs ps = (pairsToList ps).map (fun kv => (kv.1, dumps kv.2))
  | .nil => rfl
  | .cons k v rest => by
    simp only [dumpsPairs, pairsToList, List.map_cons]
    rw [dumpsPairs_toList rest]

theorem dumpsPairs_keys : ∀ ps : JsonPairs,
    (dumpsPairs ps).map Prod.fst = keysList ps
  | .nil => rfl
  | .cons k v rest => by
    simp only [dumpsPairs, keysList, List.map_cons]
    rw [dumpsPairs_keys rest]

theorem containsKey_iff : ∀ (l : List String) (k : String),
    containsKey l k = true ↔ k ∈ l
  | [], k => by simp [containsKey]
  | x :: xs, k => by
    simp only [containsKey, Bool.or_eq_true, beq_iff_eq, containsKey_iff xs k,
      List.mem_cons]
    constructor
    · rintro (h | h)
      · exact Or.inl h.symm
      · exact Or.inr h
    · rintro (h | h)
      · exact Or.inl h.symm
      · exact Or.inr h

theorem keysNodupB_iff : ∀ l : List String, keysNodupB l = true ↔ l.Nodup
  | [] => by simp [keysNodupB]
  | k :: rest => by
    simp only [keysNodupB, Bool.and_eq_true, Bool.not_eq_true', keysNodupB_iff rest,
      List.nodup_cons]
    have hck : containsKey rest k = false ↔ ¬ k ∈ rest := by
      rw [← containsKey_iff rest k]
      simp
    rw [hck]

mutual
theorem dumps_permEquiv : ∀ {d d2 : Json}, PermEquiv d d2 →
    nodupKeys d = true → dumps d = dumps d2
  | _, _, .scalar s, _ => rfl
  | _, _, .arr h, hnd => by
    simp only [dumps]
    rw [dumpsList_permEquiv h (by simpa [nodupKeys] using hnd)]
  | _, _, .obj h1 h2, hnd => by
    rename_i ps mid qs
    have hnd2 : keysNodupB (keysList ps) = true ∧ nodupKeysPairs ps = true := by
      simpa [nodupKeys, Bool.and_eq_true] using hnd
    have step1 : dumpsPairs ps = dumpsPairs mid := dumpsPairs_permEquiv h1 hnd2.2
    have step2 : (dumpsPairs mid).Perm (dumpsPairs qs) := by
      rw [dumpsPairs_toList mid, dumpsPairs_toList qs]
      exact h2.map _
    have hperm : (dumpsPairs ps).Perm (dumpsPairs qs) := step1 ▸ step2
    have hndk : ((dumpsPairs ps).map Prod.fst).Nodup := by
      rw [dumpsPairs_keys]
      exact (keysNodupB_iff _).mp hnd2.1
    simp only [dumps]
    rw [sortPairs_eq_of_perm hperm hndk]

theorem dumpsList_permEquiv : ∀ {xs ys : JsonList}, PermEquivList xs ys →
    nodupKeysList xs = true → dumpsList xs = dumpsList ys
  | _, _, .nil, _ => rfl
  | _, _, .cons hx hrest, hnd => by
    rename_i x y xs ys
    have hnd2 : nodupKeys x = true ∧ nodupKeysList xs = true := by
      simpa [nodupKeysList, Bool.and_eq_true] using hnd
    simp only [dumpsList]
    rw [dumps_permEquiv hx hnd2.1, dumpsList_permEquiv hrest hnd2.2]

theorem dumpsPairs_permEquiv : ∀ {ps qs : JsonPairs}, PermEquivPairs ps qs →
    nodupKeysPairs ps = true → dumpsPairs ps = dumpsPairs qs
  | _, _, .nil, _ => rfl
  | _, _, .cons k hv hrest, hnd => by
    rename_i v w ps qs
    have hnd2 : nodupKeys v = true ∧ nodupKeysPairs ps = true := by
      simpa [nodupKeysPairs, Bool.and_eq_true] using hnd
    simp only [dumpsPairs]
    rw [dumps_permEquiv hv hnd2.1, dumpsPairs_permEquiv hrest hnd2.2]
end

/-- C5: for any decision d with distinct keys at every nesting level (as
every Python dict has) and any d2 obtained from d by permuting key order
at any nesting levels while keeping identical key/value pairs,
create_commitment gives identical results for d and d2 under every
secret. -/
theorem create_commitment_key_order_invariance (d d2 : Json) (salt : String)
    (h : PermEquiv d d2) (hnd : nodupKeys d = true) :
    create_commitment d salt = create_commitment d2 salt := by
  unfold create_commitment
  rw [dumps_permEquiv h hnd]

/-- Witness for C5: a three-key signal and its reversed-key-order variant
commit identically. -/
theorem create_commitment_key_order_invariance_witness :
    create_commitment sigC5a "00" = create_commitment sigC5b "00" :=
  create_commitment_key_order_invariance sigC5a sigC5b "00"
    (PermEquiv.obj
      (PermEquivPairs.cons "pair" (PermEquiv.scalar _)
        (PermEquivPairs.cons "direction" (PermEquiv.scalar _)
          (PermEquivPairs.cons "confidence" (PermEquiv.scalar _) PermEquivPairs.nil)))
      (by decide))
    (by decide)
